import Mathlib

/-!
Shallow embedding of `substrate/client/network/sync/src/fast_sync_engine.rs`
(the `FastSyncingEngine` one-shot fast-sync orchestrator) and of the small
external surfaces it consumes.  Pure data is translated directly; the async
event loop is modelled as explicit state passing over a script of external
events and a script of strategy polls; network / import-pipeline side
effects are modelled as an explicit effect trace.
-/

/-- Opaque, stable identifier for a network peer (libp2p `PeerId`). -/
abbrev PeerId := Nat

/-- `sc_network::ReputationChange`: a signed adjustment to a peer's standing
together with a human-readable reason. -/
structure ReputationChange where
  value : Int
  reason : String
deriving DecidableEq, Repr

/-- `Rep::new(value, reason)`. -/
def ReputationChange.new (value : Int) (reason : String) : ReputationChange :=
  { value := value, reason := reason }

/-- `Rep::new_fatal(reason)`: the minimal `i32` value, an immediate-ban level change. -/
def ReputationChange.new_fatal (reason : String) : ReputationChange :=
  { value := -(2 ^ 31), reason := reason }

namespace rep

/-- We received a message that failed to decode. -/
def BAD_MESSAGE : ReputationChange := ReputationChange.new (-(2 ^ 12)) "Bad message"

/-- Peer is on unsupported protocol version. -/
def BAD_PROTOCOL : ReputationChange := ReputationChange.new_fatal "Unsupported protocol"

/-- Reputation change when a peer refuses a request. -/
def REFUSED : ReputationChange := ReputationChange.new (-(2 ^ 10)) "Request refused"

/-- Reputation change when a peer does not respond in time to our messages. -/
def TIMEOUT : ReputationChange := ReputationChange.new (-(2 ^ 10)) "Request timeout"

end rep

/-- Modelled from the spec: the wire schema type `schema::v1::StateRequest`
is produced by a separate schema crate not present in the provided sources;
per the spec it is a single fixed-schema request message treated opaquely by
the engine.  Its payload is modelled as a byte sequence. -/
structure StateRequest where
  payload : List Nat
deriving DecidableEq, Repr

/-- Modelled from the spec: serialization of `StateRequest` against the fixed
wire schema (`prost::Message::encode_to_vec`); deterministic and total on
valid values.  Modelled as a canonical length-prefixed byte layout. -/
def StateRequest.encode_to_vec (r : StateRequest) : List Nat :=
  r.payload.length :: r.payload

/-- Modelled from the spec: parsing bytes against the fixed wire schema
(`prost::Message::decode`); fails on any malformed or truncated input and
always returns an error value rather than aborting. -/
def StateRequest.decode (bytes : List Nat) : Except String StateRequest :=
  match bytes with
  | [] => .error "unexpected end of input"
  | n :: body => if n = body.length then .ok { payload := body } else .error "malformed state request"

/-- Modelled from the spec: the wire schema type `schema::v1::StateResponse`,
the single fixed-schema response message; its payload is modelled as a byte
sequence. -/
structure StateResponse where
  payload : List Nat
deriving DecidableEq, Repr

/-- Modelled from the spec: serialization of `StateResponse` (canonical
length-prefixed layout, mirroring the request side). -/
def StateResponse.encode_to_vec (s : StateResponse) : List Nat :=
  s.payload.length :: s.payload

/-- Modelled from the spec: parsing bytes as a `StateResponse`; always
returns an error value on malformed or truncated input. -/
def StateResponse.decode (bytes : List Nat) : Except String StateResponse :=
  match bytes with
  | [] => .error "unexpected end of input"
  | n :: body => if n = body.length then .ok { payload := body } else .error "malformed state response"

/-- `OpaqueStateRequest`: a type-erased box (`Box<dyn Any>`) holding the
concrete request.  The `state` variant is the expected concrete type; the
`other` variant models a box holding a value of any different concrete type,
for which the `downcast_ref` of the engine fails. -/
inductive OpaqueStateRequest where
  | state (r : StateRequest)
  | other (tag : String)
deriving DecidableEq, Repr

/-- `OpaqueStateResponse`: type-erased box holding a decoded `StateResponse`. -/
structure OpaqueStateResponse where
  response : StateResponse
deriving DecidableEq, Repr

/-- `sp_consensus::BlockOrigin`: the source/trust context tag attached to an
imported block batch. -/
inductive BlockOrigin where
  | genesis
  | networkInitialSync
  | networkBroadcast
  | consensusBroadcast
  | own
  | file
deriving DecidableEq, Repr

/-- `sc_consensus::IncomingBlock`, reduced to an identifying hash (the engine
never inspects any field; it only stores and forwards whole values). -/
structure IncomingBlock where
  hash : Nat
deriving DecidableEq, Repr

/-- `types::BadPeer(PeerId, ReputationChange)`. -/
structure BadPeer where
  peer_id : PeerId
  rep : ReputationChange
deriving DecidableEq, Repr

/-- `strategy::state::StateStrategyAction`: one instruction emitted by the
sync strategy for the engine to execute. -/
inductive StateStrategyAction where
  | SendStateRequest (peer_id : PeerId) (request : OpaqueStateRequest)
  | DropPeer (bad : BadPeer)
  | ImportBlocks (origin : BlockOrigin) (blocks : List IncomingBlock)
  | Finished
deriving DecidableEq, Repr

/-- `types::PeerRequest`: the kind of an outstanding request. -/
inductive PeerRequest where
  | Block
  | State
  | WarpProof
deriving DecidableEq, Repr

/-- `libp2p::request_response::OutboundFailure`. -/
inductive OutboundFailure where
  | DialFailure
  | Timeout
  | ConnectionClosed
  | UnsupportedProtocols
deriving DecidableEq, Repr

/-- `sc_network::request_responses::RequestFailure`. -/
inductive RequestFailure where
  | NotConnected
  | UnknownProtocol
  | Refused
  | Obsolete
  | Network (f : OutboundFailure)
deriving DecidableEq, Repr

/-- The outcome slot of a `ResponseEvent`:
`Result<Result<(Vec<u8>, ProtocolName), RequestFailure>, oneshot::Canceled>`. -/
inductive PendingOutcome where
  | success (bytes : List Nat) (protocol : String)
  | failure (e : RequestFailure)
  | canceled
deriving DecidableEq, Repr

/-- `pending_responses::ResponseEvent`: a completion event of the tracker. -/
structure ResponseEvent where
  peer_id : PeerId
  request : PeerRequest
  response : PendingOutcome
deriving DecidableEq, Repr

/-- `IfDisconnected` semantics of `start_request`. -/
inductive IfDisconnected where
  | TryConnect
  | ImmediateError
deriving DecidableEq, Repr

/-- The status record returned by the strategy, of which the engine
overwrites the connected-peer count (`SyncStatus`); all other fields are
opaque to the engine and collapsed into `detail`. -/
structure SyncStatus where
  num_connected_peers : Nat
  detail : Nat
deriving DecidableEq, Repr

/-- Per-connected-peer state (`Peer<B>`), with the chain/role metadata `info`
opaque to the engine and the LRU known-block set as a plain list. -/
structure Peer where
  info : Nat
  known_blocks : List Nat
deriving DecidableEq, Repr

/-- `syncing_service::ToServiceCommand`: control-plane requests (each carries
a single-use reply channel in the source; the reply is modelled as an
emitted effect). -/
inductive ToServiceCommand where
  | Status
  | PeersInfo
  | Start
deriving DecidableEq, Repr

/-- A reply sent on a control-plane oneshot channel. -/
inductive ServiceReply where
  | status (s : SyncStatus)
  | peersInfo (l : List (PeerId × Nat))
  | started
deriving DecidableEq, Repr

/-- One externally observable side effect of the engine: a call into the
network service, the import pipeline, the strategy's response handler, or a
control-plane reply channel. -/
inductive Effect where
  | startRequest (peer : PeerId) (protocol : String) (data : List Nat) (ifDisconnected : IfDisconnected)
  | disconnectPeer (peer : PeerId) (protocol : String)
  | reportPeer (peer : PeerId) (rep : ReputationChange)
  | importBlocks (origin : BlockOrigin) (blocks : List IncomingBlock)
  | onStateResponse (peer : PeerId) (response : OpaqueStateResponse)
  | reply (r : ServiceReply)
deriving DecidableEq, Repr

/-- The engine-private mutable state of `FastSyncingEngine`.  The strategy
itself is external (its polls and its status are inputs to the model); the
pending-response tracker is modelled as the list of outstanding
`(peer, request-kind)` entries. -/
structure EngineState where
  pending_responses : List (PeerId × PeerRequest)
  peers : List (PeerId × Peer)
  syncing_started : Bool
  state_request_protocol_name : String
  strategy_status : SyncStatus
  last_block : Option IncomingBlock
deriving DecidableEq, Repr

/-- `sp_blockchain::Error`, reduced to the one variant the engine produces. -/
inductive ClientError where
  | Backend (message : String)
deriving DecidableEq, Repr

namespace FastSyncingEngine

/-- `FastSyncingEngine::new`: the freshly constructed engine state — empty
peer map, empty pending-response tracker, no recorded last block, syncing
not yet started. -/
def new (state_request_protocol_name : String) (strategy_status : SyncStatus) : EngineState :=
  { pending_responses := []
    peers := []
    syncing_started := false
    state_request_protocol_name := state_request_protocol_name
    strategy_status := strategy_status
    last_block := none }

/-- `encode_state_request`: downcast the opaque box to the concrete
`StateRequest` (failing with an implementation-bug message on a type
mismatch), then serialize it. -/
def encode_state_request (request : OpaqueStateRequest) : Except String (List Nat) :=
  match request with
  | .state r => .ok r.encode_to_vec
  | .other _ =>
      .error "Failed to downcast opaque state response during encoding, this is an implementation bug."

/-- `decode_state_response`: parse the bytes as a `StateResponse` and box the
result, mapping a parse error to a formatted message. -/
def decode_state_response (response : List Nat) : Except String OpaqueStateResponse :=
  match StateResponse.decode response with
  | .ok r => .ok { response := r }
  | .error e => .error ("Failed to decode state response: " ++ e)

/-- Modelled from the spec: `PendingResponses::insert` (the tracker lives in
`pending_responses.rs`, outside the provided sources) registers one
outstanding request for the peer. -/
def pendingInsert (pending : List (PeerId × PeerRequest)) (peer_id : PeerId)
    (request : PeerRequest) : List (PeerId × PeerRequest) :=
  pending ++ [(peer_id, request)]

/-- Modelled from the spec: `PendingResponses::remove` drops all entries for
the given peer without producing completion events for them. -/
def pendingRemove (pending : List (PeerId × PeerRequest)) (peer_id : PeerId) :
    List (PeerId × PeerRequest) :=
  pending.filter (fun q => q.1 != peer_id)

/-- `send_state_request`: register a pending-response entry for
`(peer_id, State)`, then encode the request; on success issue it over the
transport with fail-immediately-if-disconnected semantics, on failure only
log (the entry stays registered, its channel sender having been dropped). -/
def send_state_request (st : EngineState) (peer_id : PeerId) (request : OpaqueStateRequest) :
    EngineState × List Effect :=
  let st' := { st with pending_responses := pendingInsert st.pending_responses peer_id .State }
  match encode_state_request request with
  | .ok data =>
      (st', [.startRequest peer_id st.state_request_protocol_name data .ImmediateError])
  | .error _ => (st', [])

/-- The body of one arm of the action loop of `process_strategy_actions`:
the state transition and effects of executing a single strategy action. -/
def stepAction (st : EngineState) : StateStrategyAction → EngineState × List Effect
  | .SendStateRequest peer_id request => send_state_request st peer_id request
  | .DropPeer bad =>
      ({ st with pending_responses := pendingRemove st.pending_responses bad.peer_id },
        [.disconnectPeer bad.peer_id st.state_request_protocol_name,
          .reportPeer bad.peer_id bad.rep])
  | .ImportBlocks origin blocks =>
      ({ st with last_block := blocks.head? }, [.importBlocks origin blocks])
  | .Finished => (st, [])

/-- The `for action in actions` loop of `process_strategy_actions`: actions
are executed in emission order; an `ImportBlocks` action returns `Ok(None)`
immediately, ending the loop (and the engine) there. -/
def processActionsLoop (st : EngineState) :
    List StateStrategyAction → EngineState × List Effect × Except ClientError (Option Unit)
  | [] => (st, [], .ok (some ()))
  | a :: rest =>
      let s := stepAction st a
      match a with
      | .ImportBlocks _ _ => (s.1, s.2, .ok none)
      | _ =>
          let r := processActionsLoop s.1 rest
          (r.1, s.2 ++ r.2.1, r.2.2)

/-- `process_strategy_actions`, applied to the action sequence collected from
one strategy poll: an empty sequence is a fatal backend error; otherwise the
actions are executed in order. -/
def process_strategy_actions (st : EngineState) (actions : List StateStrategyAction) :
    EngineState × List Effect × Except ClientError (Option Unit) :=
  if actions.isEmpty then
    (st, [], .error (ClientError.Backend "Fast sync failed - no further actions."))
  else
    processActionsLoop st actions

/-- `process_service_command`: answer a control-plane query from current
engine state; the engine state itself is untouched. -/
def process_service_command (st : EngineState) : ToServiceCommand → EngineState × List Effect
  | .Status =>
      let status := { st.strategy_status with num_connected_peers := st.peers.length }
      (st, [.reply (.status status)])
  | .PeersInfo =>
      (st, [.reply (.peersInfo (st.peers.map (fun q => (q.1, q.2.info))))])
  | .Start => (st, [.reply .started])

/-- `process_response_event`: classify the outcome of a completed request and
apply the reputation/disconnect policy, forwarding a successfully decoded
`State` response to the strategy's response handler. -/
def process_response_event (st : EngineState) (ev : ResponseEvent) : EngineState × List Effect :=
  match ev.response with
  | .success bytes _protocol =>
      match ev.request with
      | .Block => (st, [])
      | .State =>
          match decode_state_response bytes with
          | .ok proto => (st, [.onStateResponse ev.peer_id proto])
          | .error _ =>
              (st, [.reportPeer ev.peer_id rep.BAD_MESSAGE,
                .disconnectPeer ev.peer_id st.state_request_protocol_name])
      | .WarpProof => (st, [])
  | .failure e =>
      match e with
      | .Network .Timeout =>
          (st, [.reportPeer ev.peer_id rep.TIMEOUT,
            .disconnectPeer ev.peer_id st.state_request_protocol_name])
      | .Network .UnsupportedProtocols =>
          (st, [.reportPeer ev.peer_id rep.BAD_PROTOCOL,
            .disconnectPeer ev.peer_id st.state_request_protocol_name])
      | .Network .DialFailure =>
          (st, [.disconnectPeer ev.peer_id st.state_request_protocol_name])
      | .Refused =>
          (st, [.reportPeer ev.peer_id rep.REFUSED,
            .disconnectPeer ev.peer_id st.state_request_protocol_name])
      | .Network .ConnectionClosed =>
          (st, [.disconnectPeer ev.peer_id st.state_request_protocol_name])
      | .NotConnected =>
          (st, [.disconnectPeer ev.peer_id st.state_request_protocol_name])
      | .UnknownProtocol => (st, [])
      | .Obsolete => (st, [])
  | .canceled => (st, [.disconnectPeer ev.peer_id st.state_request_protocol_name])

/-- One external event delivered to the `tokio::select!` of the loop:
either a service command or a pending-response completion. -/
inductive ExternalEvent where
  | command (c : ToServiceCommand)
  | response (r : ResponseEvent)
deriving DecidableEq, Repr

/-- Dispatch of the `tokio::select!` arms. -/
def processEvent (st : EngineState) : ExternalEvent → EngineState × List Effect
  | .command c => process_service_command st c
  | .response r => process_response_event st r

deriving instance DecidableEq for Except

/-- The outcome of running the loop against a finite script of external
events: either the engine returned (successfully or fatally), or it is
parked awaiting the next external event. -/
inductive RunOutcome where
  | finished (result : Except ClientError (Option IncomingBlock))
  | awaiting (st : EngineState) (polls : List (List StateStrategyAction))
deriving DecidableEq, Repr

/-- The `loop` of `run`: each iteration consumes exactly one external event,
then unconditionally pulls and processes the entire currently-available
action sequence of the strategy (`polls` scripts the successive results of
`strategy.actions()`); `Ok(None)` breaks the loop and the engine returns
`last_block.take()`, an error is returned as is, `Ok(Some(()))` continues. -/
def runLoop (st : EngineState) (polls : List (List StateStrategyAction)) :
    List ExternalEvent → List Effect × RunOutcome
  | [] => ([], .awaiting st polls)
  | e :: es =>
      let pe := processEvent st e
      let pr := process_strategy_actions pe.1 (polls.headD [])
      match pr.2.2 with
      | .error err => (pe.2 ++ pr.2.1, .finished (.error err))
      | .ok none => (pe.2 ++ pr.2.1, .finished (.ok pr.1.last_block))
      | .ok (some _) =>
          let rest := runLoop pr.1 polls.tail es
          (pe.2 ++ pr.2.1 ++ rest.1, rest.2)

/-- `run`: record the start instant, then enter the loop. -/
def run (st : EngineState) (polls : List (List StateStrategyAction))
    (events : List ExternalEvent) : List Effect × RunOutcome :=
  runLoop { st with syncing_started := true } polls events

/-- Reference semantics of processing every action of a poll in emission
order, with no early return; used to compare `process_strategy_actions`
against the full in-order processing the spec describes. -/
def runActions (st : EngineState) : List StateStrategyAction → EngineState × List Effect
  | [] => (st, [])
  | a :: rest =>
      let s := stepAction st a
      let r := runActions s.1 rest
      (r.1, s.2 ++ r.2)

end FastSyncingEngine

/-- Whether an effect is a call into the import pipeline. -/
def Effect.isImportBlocks : Effect → Bool
  | .importBlocks _ _ => true
  | _ => false

/-- Whether an effect is an outgoing network request. -/
def Effect.isStartRequest : Effect → Bool
  | .startRequest _ _ _ _ => true
  | _ => false

/-- Whether an effect is an invocation of the strategy's state-response handler. -/
def Effect.isOnStateResponse : Effect → Bool
  | .onStateResponse _ _ => true
  | _ => false

/-- Whether a control-plane reply effect (if any) reports an empty peer map:
a status reply with zero connected peers, or an empty per-peer info snapshot.
Non-reply effects satisfy this vacuously. -/
def Effect.reportsEmptyPeers : Effect → Bool
  | .reply (.status s) => s.num_connected_peers == 0
  | .reply (.peersInfo l) => l.isEmpty
  | _ => true

/-- Whether a strategy action is an `ImportBlocks` action. -/
def StateStrategyAction.isImport : StateStrategyAction → Bool
  | .ImportBlocks _ _ => true
  | _ => false

/-- A concrete engine state used to instantiate universally quantified
theorems at explicit inputs. -/
def exState : EngineState :=
  { pending_responses := []
    peers := []
    syncing_started := false
    state_request_protocol_name := "/0011/state/2"
    strategy_status := { num_connected_peers := 0, detail := 0 }
    last_block := none }

/-- A concrete poll in which an `ImportBlocks` action is followed by a
further action. -/
def c5Actions : List StateStrategyAction :=
  [.ImportBlocks .networkInitialSync [{ hash := 1 }],
    .SendStateRequest 7 (.state { payload := [2] })]

/-- A concrete poll with no `ImportBlocks` action. -/
def c5NoImport : List StateStrategyAction :=
  [.SendStateRequest 1 (.state { payload := [] }), .Finished]

/-- Handling a service command never mutates the engine state. -/
theorem process_service_command_fst (st : EngineState) (c : ToServiceCommand) :
    (FastSyncingEngine.process_service_command st c).1 = st := by
  cases c <;> rfl

/-- Handling a response event never mutates the engine state. -/
theorem process_response_event_fst (st : EngineState) (r : ResponseEvent) :
    (FastSyncingEngine.process_response_event st r).1 = st := by
  rcases r with ⟨p, req, resp⟩
  unfold FastSyncingEngine.process_response_event
  repeat' split
  all_goals rfl

/-- Handling any external event never mutates the engine state. -/
theorem processEvent_fst (st : EngineState) (e : FastSyncingEngine.ExternalEvent) :
    (FastSyncingEngine.processEvent st e).1 = st := by
  cases e with
  | command c => exact process_service_command_fst st c
  | response r => exact process_response_event_fst st r

/-- Handling a response event emits neither import-pipeline calls nor
outgoing network requests. -/
theorem process_response_event_effects_clean (st : EngineState) (r : ResponseEvent) :
    (FastSyncingEngine.process_response_event st r).2.filter Effect.isImportBlocks = [] ∧
    (FastSyncingEngine.process_response_event st r).2.filter Effect.isStartRequest = [] := by
  rcases r with ⟨p, req, resp⟩
  unfold FastSyncingEngine.process_response_event
  repeat' split
  all_goals exact ⟨rfl, rfl⟩

/-- Handling an external event emits neither import-pipeline calls nor
outgoing network requests. -/
theorem processEvent_effects_clean (st : EngineState) (e : FastSyncingEngine.ExternalEvent) :
    (FastSyncingEngine.processEvent st e).2.filter Effect.isImportBlocks = [] ∧
    (FastSyncingEngine.processEvent st e).2.filter Effect.isStartRequest = [] := by
  cases e with
  | command c => cases c <;> exact ⟨rfl, rfl⟩
  | response r => exact process_response_event_effects_clean st r

/-- Executing one strategy action preserves the peer map. -/
theorem stepAction_peers (st : EngineState) (a : StateStrategyAction) :
    (FastSyncingEngine.stepAction st a).1.peers = st.peers := by
  cases a with
  | SendStateRequest p r =>
      show (FastSyncingEngine.send_state_request st p r).1.peers = st.peers
      unfold FastSyncingEngine.send_state_request
      split <;> rfl
  | DropPeer b => rfl
  | ImportBlocks o bs => rfl
  | Finished => rfl

/-- The action loop preserves the peer map. -/
theorem processActionsLoop_peers (acts : List StateStrategyAction) (st : EngineState) :
    (FastSyncingEngine.processActionsLoop st acts).1.peers = st.peers := by
  induction acts generalizing st with
  | nil => rfl
  | cons a rest ih =>
      unfold FastSyncingEngine.processActionsLoop
      cases a with
      | ImportBlocks o bs => exact stepAction_peers st (.ImportBlocks o bs)
      | SendStateRequest p r =>
          dsimp only
          rw [ih, stepAction_peers]
      | DropPeer b =>
          dsimp only
          rw [ih, stepAction_peers]
      | Finished =>
          dsimp only
          rw [ih, stepAction_peers]

/-- `process_strategy_actions` preserves the peer map. -/
theorem process_strategy_actions_peers (st : EngineState) (acts : List StateStrategyAction) :
    (FastSyncingEngine.process_strategy_actions st acts).1.peers = st.peers := by
  unfold FastSyncingEngine.process_strategy_actions
  split
  · rfl
  · exact processActionsLoop_peers acts st

/-- Strategy-action effects contain no control-plane reply. -/
theorem stepAction_effects_noreply (st : EngineState) (a : StateStrategyAction) :
    (FastSyncingEngine.stepAction st a).2.all Effect.reportsEmptyPeers = true := by
  cases a with
  | SendStateRequest p r =>
      show (FastSyncingEngine.send_state_request st p r).2.all _ = true
      unfold FastSyncingEngine.send_state_request
      split <;> rfl
  | DropPeer b => rfl
  | ImportBlocks o bs => rfl
  | Finished => rfl

/-- Action-loop effects contain no control-plane reply. -/
theorem processActionsLoop_effects_noreply (acts : List StateStrategyAction) (st : EngineState) :
    (FastSyncingEngine.processActionsLoop st acts).2.1.all Effect.reportsEmptyPeers = true := by
  induction acts generalizing st with
  | nil => rfl
  | cons a rest ih =>
      unfold FastSyncingEngine.processActionsLoop
      cases a with
      | ImportBlocks o bs => exact stepAction_effects_noreply st (.ImportBlocks o bs)
      | SendStateRequest p r =>
          dsimp only
          rw [List.all_append, ih, stepAction_effects_noreply, Bool.and_true]
      | DropPeer b =>
          dsimp only
          rw [List.all_append, ih, stepAction_effects_noreply, Bool.and_true]
      | Finished =>
          dsimp only
          rw [List.all_append, ih, stepAction_effects_noreply, Bool.and_true]

/-- `process_strategy_actions` effects contain no control-plane reply. -/
theorem process_strategy_actions_effects_noreply (st : EngineState)
    (acts : List StateStrategyAction) :
    (FastSyncingEngine.process_strategy_actions st acts).2.1.all Effect.reportsEmptyPeers = true := by
  unfold FastSyncingEngine.process_strategy_actions
  split
  · rfl
  · exact processActionsLoop_effects_noreply acts st

/-- When the peer map is empty, every reply emitted while handling an
external event reports an empty peer map. -/
theorem processEvent_reports_empty (st : EngineState) (e : FastSyncingEngine.ExternalEvent)
    (h : st.peers = []) :
    (FastSyncingEngine.processEvent st e).2.all Effect.reportsEmptyPeers = true := by
  cases e with
  | command c =>
      cases c with
      | Status =>
          show (FastSyncingEngine.process_service_command st .Status).2.all _ = true
          unfold FastSyncingEngine.process_service_command
          simp [Effect.reportsEmptyPeers, h]
      | PeersInfo =>
          show (FastSyncingEngine.process_service_command st .PeersInfo).2.all _ = true
          unfold FastSyncingEngine.process_service_command
          simp [Effect.reportsEmptyPeers, h]
      | Start => rfl
  | response r =>
      rcases r with ⟨p, req, resp⟩
      show (FastSyncingEngine.process_response_event st ⟨p, req, resp⟩).2.all _ = true
      unfold FastSyncingEngine.process_response_event
      repeat' split
      all_goals rfl

/-- When started with an empty peer map, every control-plane reply produced
along the whole run reports an empty peer map. -/
theorem runLoop_reports_empty (events : List FastSyncingEngine.ExternalEvent)
    (polls : List (List StateStrategyAction)) (st : EngineState) (h : st.peers = []) :
    (FastSyncingEngine.runLoop st polls events).1.all Effect.reportsEmptyPeers = true := by
  induction events generalizing st polls with
  | nil => rfl
  | cons e es ih =>
      unfold FastSyncingEngine.runLoop
      have hpe : (FastSyncingEngine.processEvent st e).1.peers = [] := by
        rw [processEvent_fst]; exact h
      have hact : (FastSyncingEngine.process_strategy_actions
          (FastSyncingEngine.processEvent st e).1 (polls.headD [])).1.peers = [] := by
        rw [process_strategy_actions_peers]; exact hpe
      dsimp only
      split
      · rw [List.all_append, processEvent_reports_empty st e h,
          process_strategy_actions_effects_noreply]
        rfl
      · rw [List.all_append, processEvent_reports_empty st e h,
          process_strategy_actions_effects_noreply]
        rfl
      · rw [List.all_append, List.all_append, processEvent_reports_empty st e h,
          process_strategy_actions_effects_noreply, ih _ _ hact]
        rfl

/-- Claim C1: if the strategy poll yields `ImportBlocks {origin, blocks = [b1, b2, b3]}`,
the loop terminates successfully with `b1` (the first block of the sequence) as the
engine's result, and the only import-pipeline call of the whole trace hands over exactly
the batch `[b1, b2, b3]` with `origin` attached. -/
theorem claim_C1 (st : EngineState) (e : FastSyncingEngine.ExternalEvent)
    (origin : BlockOrigin) (b1 b2 b3 : IncomingBlock)
    (ps : List (List StateStrategyAction)) (es : List FastSyncingEngine.ExternalEvent) :
    FastSyncingEngine.runLoop st ([.ImportBlocks origin [b1, b2, b3]] :: ps) (e :: es) =
      ((FastSyncingEngine.processEvent st e).2 ++ [.importBlocks origin [b1, b2, b3]],
        .finished (.ok (some b1))) ∧
    (FastSyncingEngine.runLoop st ([.ImportBlocks origin [b1, b2, b3]] :: ps)
        (e :: es)).1.filter Effect.isImportBlocks =
      [.importBlocks origin [b1, b2, b3]] := by
  have h1 : FastSyncingEngine.runLoop st ([.ImportBlocks origin [b1, b2, b3]] :: ps) (e :: es) =
      ((FastSyncingEngine.processEvent st e).2 ++ [.importBlocks origin [b1, b2, b3]],
        .finished (.ok (some b1))) := by
    simp [FastSyncingEngine.runLoop, FastSyncingEngine.process_strategy_actions,
      FastSyncingEngine.processActionsLoop, FastSyncingEngine.stepAction]
  refine ⟨h1, ?_⟩
  rw [h1]
  dsimp only
  rw [List.filter_append, (processEvent_effects_clean st e).1]
  rfl

/-- Claim C3: every outright request-failure outcome is answered with exactly the
(reputation change, disconnect) pair of the policy table, and nothing else — the engine
state is untouched in every row: timeout and refusal give a moderate negative change
plus a disconnect, unsupported protocols a fatal change plus a disconnect, dial failure,
connection-closed, not-connected and a locally canceled channel a bare disconnect, and
unknown-protocol and obsolete reports nothing at all. -/
theorem claim_C3 (st : EngineState) (p : PeerId) (req : PeerRequest) :
    FastSyncingEngine.process_response_event st ⟨p, req, .failure (.Network .Timeout)⟩ =
      (st, [.reportPeer p rep.TIMEOUT,
        .disconnectPeer p st.state_request_protocol_name]) ∧
    FastSyncingEngine.process_response_event st
        ⟨p, req, .failure (.Network .UnsupportedProtocols)⟩ =
      (st, [.reportPeer p rep.BAD_PROTOCOL,
        .disconnectPeer p st.state_request_protocol_name]) ∧
    FastSyncingEngine.process_response_event st ⟨p, req, .failure .Refused⟩ =
      (st, [.reportPeer p rep.REFUSED,
        .disconnectPeer p st.state_request_protocol_name]) ∧
    FastSyncingEngine.process_response_event st ⟨p, req, .failure (.Network .DialFailure)⟩ =
      (st, [.disconnectPeer p st.state_request_protocol_name]) ∧
    FastSyncingEngine.process_response_event st
        ⟨p, req, .failure (.Network .ConnectionClosed)⟩ =
      (st, [.disconnectPeer p st.state_request_protocol_name]) ∧
    FastSyncingEngine.process_response_event st ⟨p, req, .failure .NotConnected⟩ =
      (st, [.disconnectPeer p st.state_request_protocol_name]) ∧
    FastSyncingEngine.process_response_event st ⟨p, req, .canceled⟩ =
      (st, [.disconnectPeer p st.state_request_protocol_name]) ∧
    FastSyncingEngine.process_response_event st ⟨p, req, .failure .UnknownProtocol⟩ =
      (st, []) ∧
    FastSyncingEngine.process_response_event st ⟨p, req, .failure .Obsolete⟩ = (st, []) := by
  exact ⟨rfl, rfl, rfl, rfl, rfl, rfl, rfl, rfl, rfl⟩

/-- Claim C4: a completed `State` response whose bytes fail to decode earns the
responding peer the large negative bad-message reputation change and a disconnect on
the state-request protocol, and the strategy's state-response handler is never invoked
for it. -/
theorem claim_C4 (st : EngineState) (p : PeerId) (bytes : List Nat) (protocol : String)
    (msg : String) (h : FastSyncingEngine.decode_state_response bytes = .error msg) :
    FastSyncingEngine.process_response_event st ⟨p, .State, .success bytes protocol⟩ =
      (st, [.reportPeer p rep.BAD_MESSAGE,
        .disconnectPeer p st.state_request_protocol_name]) ∧
    (FastSyncingEngine.process_response_event st
        ⟨p, .State, .success bytes protocol⟩).2.filter Effect.isOnStateResponse = [] := by
  have h1 : FastSyncingEngine.process_response_event st ⟨p, .State, .success bytes protocol⟩ =
      (st, [.reportPeer p rep.BAD_MESSAGE,
        .disconnectPeer p st.state_request_protocol_name]) := by
    unfold FastSyncingEngine.process_response_event
    dsimp only
    rw [h]
  exact ⟨h1, by rw [h1]; rfl⟩

/-- Witness for C4 at a concrete malformed byte sequence. -/
theorem claim_C4_witness :
    FastSyncingEngine.decode_state_response [5] =
      .error "Failed to decode state response: malformed state response" ∧
    FastSyncingEngine.process_response_event exState ⟨0, .State, .success [5] "p"⟩ =
      (exState, [.reportPeer 0 rep.BAD_MESSAGE,
        .disconnectPeer 0 exState.state_request_protocol_name]) := by
  refine ⟨rfl, ?_⟩
  exact (claim_C4 exState 0 [5] "p"
    "Failed to decode state response: malformed state response" rfl).1

/-- Claim C7: after a `DropPeer(peer, rep)` action is processed, no pending-response
entry for that peer remains in the tracker, a disconnect of the peer on the
state-request protocol has been requested, and the given reputation change has been
applied; nothing else changes and the loop continues. -/
theorem claim_C7 (st : EngineState) (p : PeerId) (r : ReputationChange) :
    (FastSyncingEngine.process_strategy_actions st
        [.DropPeer { peer_id := p, rep := r }]).1.pending_responses.all
      (fun q => q.1 != p) = true ∧
    (FastSyncingEngine.process_strategy_actions st [.DropPeer { peer_id := p, rep := r }]).1 =
      { st with pending_responses := FastSyncingEngine.pendingRemove st.pending_responses p } ∧
    (FastSyncingEngine.process_strategy_actions st [.DropPeer { peer_id := p, rep := r }]).2.1 =
      [.disconnectPeer p st.state_request_protocol_name, .reportPeer p r] ∧
    (FastSyncingEngine.process_strategy_actions st [.DropPeer { peer_id := p, rep := r }]).2.2 =
      .ok (some ()) := by
  refine ⟨?_, rfl, rfl, rfl⟩
  show (FastSyncingEngine.pendingRemove st.pending_responses p).all (fun q => q.1 != p) = true
  unfold FastSyncingEngine.pendingRemove
  rw [List.all_eq_true]
  intro q hq
  exact (List.mem_filter.mp hq).2

/-- Claim C2: if the strategy poll yields an empty action sequence, the engine
terminates at once with the fatal "no further actions" backend error — consuming no
further external event — and the whole trace contains no network request and no
import-pipeline call. -/
theorem claim_C2 (st : EngineState) (e : FastSyncingEngine.ExternalEvent)
    (ps : List (List StateStrategyAction)) (es : List FastSyncingEngine.ExternalEvent) :
    FastSyncingEngine.runLoop st ([] :: ps) (e :: es) =
      ((FastSyncingEngine.processEvent st e).2,
        .finished (.error (ClientError.Backend "Fast sync failed - no further actions."))) ∧
    (FastSyncingEngine.runLoop st ([] :: ps) (e :: es)).1.filter Effect.isStartRequest = [] ∧
    (FastSyncingEngine.runLoop st ([] :: ps) (e :: es)).1.filter Effect.isImportBlocks = [] := by
  have h1 : FastSyncingEngine.runLoop st ([] :: ps) (e :: es) =
      ((FastSyncingEngine.processEvent st e).2,
        .finished (.error (ClientError.Backend "Fast sync failed - no further actions."))) := by
    simp [FastSyncingEngine.runLoop, FastSyncingEngine.process_strategy_actions]
  refine ⟨h1, ?_, ?_⟩
  · rw [h1]
    exact (processEvent_effects_clean st e).2
  · rw [h1]
    exact (processEvent_effects_clean st e).1

/-- Claim C10: if the strategy poll yields an `ImportBlocks` action with an empty block
sequence, the engine still hands the empty batch with the given origin to the import
pipeline, terminates the loop successfully, and returns no recorded terminal block. -/
theorem claim_C10 (st : EngineState) (e : FastSyncingEngine.ExternalEvent)
    (origin : BlockOrigin)
    (ps : List (List StateStrategyAction)) (es : List FastSyncingEngine.ExternalEvent) :
    FastSyncingEngine.runLoop st ([.ImportBlocks origin []] :: ps) (e :: es) =
      ((FastSyncingEngine.processEvent st e).2 ++ [.importBlocks origin []],
        .finished (.ok none)) ∧
    (FastSyncingEngine.runLoop st ([.ImportBlocks origin []] :: ps)
        (e :: es)).1.filter Effect.isImportBlocks = [.importBlocks origin []] := by
  have h1 : FastSyncingEngine.runLoop st ([.ImportBlocks origin []] :: ps) (e :: es) =
      ((FastSyncingEngine.processEvent st e).2 ++ [.importBlocks origin []],
        .finished (.ok none)) := by
    simp [FastSyncingEngine.runLoop, FastSyncingEngine.process_strategy_actions,
      FastSyncingEngine.processActionsLoop, FastSyncingEngine.stepAction]
  refine ⟨h1, ?_⟩
  rw [h1]
  dsimp only
  rw [List.filter_append, (processEvent_effects_clean st e).1]
  rfl

/-- On a poll without `ImportBlocks`, the action loop coincides with full
in-order processing of every action and continues the engine loop. -/
theorem processActionsLoop_no_import (acts : List StateStrategyAction) :
    ∀ st : EngineState, acts.all (fun a => !a.isImport) = true →
      FastSyncingEngine.processActionsLoop st acts =
        ((FastSyncingEngine.runActions st acts).1,
          (FastSyncingEngine.runActions st acts).2, .ok (some ())) := by
  induction acts with
  | nil => intro st h; rfl
  | cons a rest ih =>
      intro st h
      rw [List.all_cons, Bool.and_eq_true] at h
      obtain ⟨ha, hrest⟩ := h
      unfold FastSyncingEngine.processActionsLoop FastSyncingEngine.runActions
      cases a with
      | ImportBlocks o bs => simp [StateStrategyAction.isImport] at ha
      | SendStateRequest p r =>
          dsimp only
          rw [ih _ hrest]
      | DropPeer b =>
          dsimp only
          rw [ih _ hrest]
      | Finished =>
          dsimp only
          rw [ih _ hrest]

/-- Up to the first `ImportBlocks` action the loop processes actions in
order; the `ImportBlocks` action itself records the first block and returns
`Ok(None)`, skipping every action after it. -/
theorem processActionsLoop_first_import (pre : List StateStrategyAction) :
    ∀ (st : EngineState) (o : BlockOrigin) (bs : List IncomingBlock)
      (post : List StateStrategyAction), pre.all (fun a => !a.isImport) = true →
      FastSyncingEngine.processActionsLoop st (pre ++ .ImportBlocks o bs :: post) =
        ({ (FastSyncingEngine.runActions st pre).1 with last_block := bs.head? },
          (FastSyncingEngine.runActions st pre).2 ++ [.importBlocks o bs], .ok none) := by
  induction pre with
  | nil =>
      intro st o bs post h
      simp [FastSyncingEngine.processActionsLoop, FastSyncingEngine.stepAction,
        FastSyncingEngine.runActions]
  | cons a rest ih =>
      intro st o bs post h
      rw [List.all_cons, Bool.and_eq_true] at h
      obtain ⟨ha, hrest⟩ := h
      rw [List.cons_append]
      unfold FastSyncingEngine.processActionsLoop FastSyncingEngine.runActions
      cases a with
      | ImportBlocks o2 bs2 => simp [StateStrategyAction.isImport] at ha
      | SendStateRequest p r =>
          dsimp only
          rw [ih _ o bs post hrest, List.append_assoc]
      | DropPeer b =>
          dsimp only
          rw [ih _ o bs post hrest, List.append_assoc]
      | Finished =>
          dsimp only
          rw [ih _ o bs post hrest, List.append_assoc]

/-- Claim C5 counterexample: in the poll `c5Actions` an `ImportBlocks` action is
followed by a `SendStateRequest` action, yet processing the poll issues no network
request and registers no pending-response entry — the trailing action is never
processed, because `ImportBlocks` ends the loop at once. -/
theorem claim_C5_counterexample :
    (FastSyncingEngine.process_strategy_actions exState c5Actions).2.1.filter
      Effect.isStartRequest = [] ∧
    (FastSyncingEngine.process_strategy_actions exState c5Actions).1.pending_responses = [] ∧
    (FastSyncingEngine.process_strategy_actions exState c5Actions).2.2 = .ok none ∧
    (FastSyncingEngine.process_strategy_actions exState c5Actions).2.1 ≠
      (FastSyncingEngine.runActions exState c5Actions).2 := by
  exact ⟨rfl, rfl, rfl, by decide⟩

/-- Claim C5 (amended): a non-empty poll is processed to completion in emission order
when it contains no `ImportBlocks` action; when it does, the actions are processed in
emission order up to and including the first `ImportBlocks` action, which terminates
the engine successfully and skips every action after it. -/
theorem claim_C5 :
    (∀ (st : EngineState) (actions : List StateStrategyAction), actions ≠ [] →
      actions.all (fun a => !a.isImport) = true →
      FastSyncingEngine.process_strategy_actions st actions =
        ((FastSyncingEngine.runActions st actions).1,
          (FastSyncingEngine.runActions st actions).2, .ok (some ()))) ∧
    (∀ (st : EngineState) (pre : List StateStrategyAction) (o : BlockOrigin)
      (bs : List IncomingBlock) (post : List StateStrategyAction),
      pre.all (fun a => !a.isImport) = true →
      FastSyncingEngine.process_strategy_actions st (pre ++ .ImportBlocks o bs :: post) =
        ({ (FastSyncingEngine.runActions st pre).1 with last_block := bs.head? },
          (FastSyncingEngine.runActions st pre).2 ++ [.importBlocks o bs], .ok none)) := by
  constructor
  · intro st actions hne h
    cases actions with
    | nil => exact absurd rfl hne
    | cons a rest =>
        unfold FastSyncingEngine.process_strategy_actions
        rw [List.isEmpty_cons]
        exact processActionsLoop_no_import (a :: rest) st h
  · intro st pre o bs post h
    have hne : (pre ++ StateStrategyAction.ImportBlocks o bs :: post).isEmpty = false := by
      cases pre <;> rfl
    unfold FastSyncingEngine.process_strategy_actions
    rw [hne]
    exact processActionsLoop_first_import pre st o bs post h

/-- Witness for the amended C5 at concrete polls. -/
theorem claim_C5_witness :
    c5NoImport ≠ [] ∧ c5NoImport.all (fun a => !a.isImport) = true ∧
    FastSyncingEngine.process_strategy_actions exState c5NoImport =
      ((FastSyncingEngine.runActions exState c5NoImport).1,
        (FastSyncingEngine.runActions exState c5NoImport).2, .ok (some ())) ∧
    FastSyncingEngine.process_strategy_actions exState
        ([.Finished] ++ .ImportBlocks .networkInitialSync [{ hash := 4 }] :: [.Finished]) =
      ({ (FastSyncingEngine.runActions exState [.Finished]).1 with
          last_block := some { hash := 4 } },
        (FastSyncingEngine.runActions exState [.Finished]).2 ++
          [.importBlocks .networkInitialSync [{ hash := 4 }]], .ok none) := by
  refine ⟨by simp [c5NoImport], by decide, ?_, ?_⟩
  · exact claim_C5.1 exState c5NoImport (by simp [c5NoImport]) (by decide)
  · exact claim_C5.2 exState [.Finished] .networkInitialSync [{ hash := 4 }] [.Finished]
      (by decide)

/-- Claim C6 counterexample: a `SendStateRequest` whose opaque request fails to
encode (a downcast mismatch) still leaves a pending-response entry for
`(peer, State)` registered — the entry is inserted before encoding and is not removed
on the failure — while no request is issued. -/
theorem claim_C6_counterexample :
    FastSyncingEngine.encode_state_request (.other "wrong") =
      .error "Failed to downcast opaque state response during encoding, this is an implementation bug." ∧
    (FastSyncingEngine.send_state_request exState 3 (.other "wrong")).1.pending_responses =
      [(3, PeerRequest.State)] ∧
    (FastSyncingEngine.send_state_request exState 3 (.other "wrong")).2 = [] := by
  exact ⟨rfl, rfl, rfl⟩

/-- Claim C6 (amended): processing `SendStateRequest{peer_id, request}` first registers
a pending-response entry for `(peer_id, State)` unconditionally, then encodes the
opaque request; on encode success it issues the request over the transport with
fail-immediately-if-disconnected semantics, and on encode failure it only logs and
drops this action — the remaining actions of the poll are still processed, and the
already-registered pending entry remains. -/
theorem claim_C6 (st : EngineState) (p : PeerId) (r : OpaqueStateRequest)
    (rest : List StateStrategyAction) :
    (FastSyncingEngine.send_state_request st p r).1.pending_responses =
      st.pending_responses ++ [(p, PeerRequest.State)] ∧
    (FastSyncingEngine.send_state_request st p r).1 =
      { st with pending_responses := st.pending_responses ++ [(p, PeerRequest.State)] } ∧
    (FastSyncingEngine.send_state_request st p r).2 =
      (match FastSyncingEngine.encode_state_request r with
        | .ok data =>
            [Effect.startRequest p st.state_request_protocol_name data .ImmediateError]
        | .error _ => []) ∧
    FastSyncingEngine.processActionsLoop st (.SendStateRequest p r :: rest) =
      ((FastSyncingEngine.processActionsLoop
          (FastSyncingEngine.send_state_request st p r).1 rest).1,
        (FastSyncingEngine.send_state_request st p r).2 ++
          (FastSyncingEngine.processActionsLoop
            (FastSyncingEngine.send_state_request st p r).1 rest).2.1,
        (FastSyncingEngine.processActionsLoop
          (FastSyncingEngine.send_state_request st p r).1 rest).2.2) := by
  refine ⟨?_, ?_, ?_, rfl⟩
  · unfold FastSyncingEngine.send_state_request FastSyncingEngine.pendingInsert
    split <;> rfl
  · unfold FastSyncingEngine.send_state_request FastSyncingEngine.pendingInsert
    split <;> rfl
  · cases heq : FastSyncingEngine.encode_state_request r with
    | ok data =>
        unfold FastSyncingEngine.send_state_request
        rw [heq]
    | error e =>
        unfold FastSyncingEngine.send_state_request
        rw [heq]

/-- Claim C8: the engine's peer map is created empty and never populated or mutated by
any step of its own loop — command handling returns the state unchanged, response
handling returns the state unchanged, action processing preserves the peer map — the
status reply reports exactly the connected-peer count of the map and the per-peer info
reply snapshots exactly the map, and consequently every control-plane reply produced
over an entire run reports the empty map. -/
theorem claim_C8 :
    (∀ (protocol : String) (status : SyncStatus),
      (FastSyncingEngine.new protocol status).peers = []) ∧
    (∀ (st : EngineState) (c : ToServiceCommand),
      (FastSyncingEngine.process_service_command st c).1 = st) ∧
    (∀ (st : EngineState) (ev : ResponseEvent),
      (FastSyncingEngine.process_response_event st ev).1 = st) ∧
    (∀ (st : EngineState) (acts : List StateStrategyAction),
      (FastSyncingEngine.process_strategy_actions st acts).1.peers = st.peers) ∧
    (∀ st : EngineState, FastSyncingEngine.process_service_command st .Status =
      (st, [.reply (.status
        { st.strategy_status with num_connected_peers := st.peers.length })])) ∧
    (∀ st : EngineState, FastSyncingEngine.process_service_command st .PeersInfo =
      (st, [.reply (.peersInfo (st.peers.map (fun q => (q.1, q.2.info))))])) ∧
    (∀ (protocol : String) (status : SyncStatus) (polls : List (List StateStrategyAction))
      (events : List FastSyncingEngine.ExternalEvent),
      (FastSyncingEngine.run (FastSyncingEngine.new protocol status) polls events).1.all
        Effect.reportsEmptyPeers = true) := by
  refine ⟨fun _ _ => rfl, process_service_command_fst, process_response_event_fst,
    process_strategy_actions_peers, fun _ => rfl, fun _ => rfl, ?_⟩
  intro protocol status polls events
  exact runLoop_reports_empty events polls _ rfl

/-- Claim C9: encoding any valid request/response value and decoding the bytes returns
the original value (round-trip law), and decode succeeds only on exact encodings — on
any byte sequence that is not the encoding of a value (arbitrary or truncated bytes)
it returns an error value rather than succeeding or aborting. -/
theorem claim_C9 :
    (∀ r : StateRequest, StateRequest.decode r.encode_to_vec = .ok r) ∧
    (∀ s : StateResponse, StateResponse.decode s.encode_to_vec = .ok s) ∧
    (∀ (bytes : List Nat) (r : StateRequest),
      StateRequest.decode bytes = .ok r → bytes = r.encode_to_vec) ∧
    (∀ (bytes : List Nat) (s : StateResponse),
      StateResponse.decode bytes = .ok s → bytes = s.encode_to_vec) := by
  refine ⟨?_, ?_, ?_, ?_⟩
  · intro r
    simp [StateRequest.decode, StateRequest.encode_to_vec]
  · intro s
    simp [StateResponse.decode, StateResponse.encode_to_vec]
  · intro bytes r h
    cases bytes with
    | nil => exact Except.noConfusion h
    | cons n body =>
        simp only [StateRequest.decode] at h
        by_cases hn : n = body.length
        · rw [if_pos hn] at h
          injection h with h2
          rw [← h2, StateRequest.encode_to_vec, hn]
        · rw [if_neg hn] at h
          exact Except.noConfusion h
  · intro bytes s h
    cases bytes with
    | nil => exact Except.noConfusion h
    | cons n body =>
        simp only [StateResponse.decode] at h
        by_cases hn : n = body.length
        · rw [if_pos hn] at h
          injection h with h2
          rw [← h2, StateResponse.encode_to_vec, hn]
        · rw [if_neg hn] at h
          exact Except.noConfusion h

/-- Witness for C9: a concrete round trip on each side, and concrete non-trivial
byte sequences on which decode succeeds exactly because they are canonical
encodings. -/
theorem claim_C9_witness :
    StateRequest.decode (StateRequest.encode_to_vec { payload := [1, 2] }) =
      .ok { payload := [1, 2] } ∧
    StateResponse.decode (StateResponse.encode_to_vec { payload := [] }) =
      .ok { payload := [] } ∧
    ([1, 7] : List Nat) = StateRequest.encode_to_vec { payload := [7] } ∧
    ([2, 8, 9] : List Nat) = StateResponse.encode_to_vec { payload := [8, 9] } := by
  refine ⟨claim_C9.1 _, claim_C9.2.1 _, ?_, ?_⟩
  · exact claim_C9.2.2.1 [1, 7] { payload := [7] } rfl
  · exact claim_C9.2.2.2 [2, 8, 9] { payload := [8, 9] } rfl
